import Mathlib

/-!
Shallow embedding of the chapter/statistics core of the BookBuilder repository
(`src/core/chapter.py`, `src/services/statistics.py`, `src/BookBuilder.py`),
together with theorems settling the specification claims about it.

Python `float` chapter numbers are modelled as `ℚ`, Python `int` as `ℤ`
(counts as `ℕ` where Python can only produce non-negative values), Python
strings as `String`, and the filesystem as an explicit map from paths to
read outcomes.
-/

namespace BookBuilder

/-! ### Python semantics helpers -/

/-- Python `int(x)` on a real value: truncation toward zero. -/
def pyInt (q : ℚ) : ℤ :=
  if 0 ≤ q then ⌊q⌋ else ⌈q⌉

/-- Python built-in `round(x)` (no digits argument): round half to even,
returning an integer. -/
def pythonRound (q : ℚ) : ℤ :=
  let f := ⌊q⌋
  let r := q - f
  if r < 1/2 then f
  else if 1/2 < r then f + 1
  else if f % 2 = 0 then f else f + 1

/-- Python `str.split()` with no arguments: split on runs of whitespace,
discarding empty pieces. -/
def pySplit (s : String) : List String :=
  (s.split Char.isWhitespace).filter (fun w => w ≠ "")

/-- Python substring membership `needle in hay` on the underlying character
lists. -/
def hasSub (needle : List Char) : List Char → Bool
  | [] => needle.isEmpty
  | c :: rest => needle.isPrefixOf (c :: rest) || hasSub needle rest

/-- Number of non-overlapping occurrences of the two-character marker `%%`,
scanning left to right: the semantics of `re.findall(r'%%', text)` (the
`re.MULTILINE` flag is irrelevant for a pattern without anchors). -/
def dpCount : List Char → ℕ
  | '%' :: '%' :: rest => dpCount rest + 1
  | _ :: rest => dpCount rest
  | [] => 0

/-- Split a character list at newline characters: the first line and the
remaining lines (used to state the per-line reading of the comment-marker
count). -/
def splitNlAux : List Char → List Char × List (List Char)
  | [] => ([], [])
  | c :: rest =>
    let r := splitNlAux rest
    if c = '\n' then ([], r.1 :: r.2) else (c :: r.1, r.2)

/-- The lines of a character list (always at least one line, possibly
empty). -/
def splitNl (l : List Char) : List (List Char) :=
  (splitNlAux l).1 :: (splitNlAux l).2

/-- Number of lines that contain the two-character marker `%%`: the reading
of `countComments` that the specification describes ("lines containing the
marker ... each line containing the marker counts once"). -/
def linesContainingMarker (s : String) : ℕ :=
  ((splitNl s.data).filter (fun ln => hasSub ['%', '%'] ln)).length

/-- Python regex word character (`\w` over ASCII-ish text): alphanumeric or
underscore. -/
def isWordChar (c : Char) : Bool :=
  c.isAlphanum || c = '_'

/-- `\b` holds before the current position: start of text or previous
character not a word character. -/
def boundaryBefore (prev : Option Char) : Bool :=
  match prev with
  | none => true
  | some p => !isWordChar p

/-- The list starts with `TODO` case-insensitively, followed by a word
boundary. -/
def isTodoAt : List Char → Bool
  | c1 :: c2 :: c3 :: c4 :: rest =>
    c1.toLower = 't' && c2.toLower = 'o' && c3.toLower = 'd' && c4.toLower = 'o' &&
      (match rest with
       | [] => true
       | r :: _ => !isWordChar r)
  | _ => false

/-- Count of matches of the regex `\bTODO\b` with `re.IGNORECASE`
(non-overlapping, left to right), tracking the previous character for the
leading word boundary. -/
def todoCountAux (prev : Option Char) : List Char → ℕ
  | [] => 0
  | c :: rest =>
    if boundaryBefore prev && isTodoAt (c :: rest) then
      todoCountAux (some 'O') (rest.drop 3) + 1
    else
      todoCountAux (some c) rest
  termination_by l => l.length
  decreasing_by
  · simp only [List.length_cons, List.length_drop]
    omega
  · simp

/-! ### Chapter (`src/core/chapter.py`) -/

/-- Outcome of attempting to read a file at a path: the path does not exist
(`os.path.exists` is false), opening/reading raises `IOError`, or the read
succeeds with the given content. -/
inductive ReadResult where
  | notFound
  | ioError (msg : String)
  | ok (content : String)
deriving DecidableEq

/-- The filesystem as seen by one run: a map from paths to read outcomes. -/
def FS := String → ReadResult

/-- The `Chapter` dataclass: chapter number (`float`), title, markdown source
path, part index, and the two write-once caches. -/
structure Chapter where
  chapter : ℚ
  title : String
  md_path : String
  part : ℤ := 0
  textCache : Option String := none
  wordCountCache : Option ℕ := none
deriving DecidableEq

/-- `Chapter._load_text`: empty string if the path does not exist; on
`IOError` print a diagnostic and return the empty string; otherwise the file
content. Returns the text together with the diagnostics printed. -/
def loadText (fs : FS) (path : String) : String × List String :=
  match fs path with
  | .notFound => ("", [])
  | .ioError msg => ("", ["Error reading chapter file " ++ path ++ ": " ++ msg])
  | .ok content => (content, [])

/-- Result of evaluating the `Chapter.text` property: the returned string,
the (possibly updated) chapter object, and the diagnostics printed. -/
structure GetTextResult where
  value : String
  self : Chapter
  log : List String
deriving DecidableEq

/-- The `Chapter.text` property: return the cached text if present, otherwise
load it from the source path and store it in the cache. -/
def Chapter.textGet (fs : FS) (c : Chapter) : GetTextResult :=
  match c.textCache with
  | some t => ⟨t, c, []⟩
  | none =>
    let r := loadText fs c.md_path
    ⟨r.1, { c with textCache := some r.1 }, r.2⟩

/-- The value of `Chapter.text` (pure view of the property). -/
def Chapter.getText (fs : FS) (c : Chapter) : String :=
  (c.textGet fs).value

/-- `Chapter.chapter_length`: cached word count if present, otherwise the
number of whitespace-delimited tokens of the text. -/
def Chapter.chapter_length (fs : FS) (c : Chapter) : ℕ :=
  match c.wordCountCache with
  | some n => n
  | none => (pySplit (c.getText fs)).length

/-- `Chapter.is_full_chapter`:
`self.chapter == round(self.chapter) and self.chapter_length > 250`. -/
def Chapter.is_full_chapter (fs : FS) (c : Chapter) : Bool :=
  decide (c.chapter = (pythonRound c.chapter : ℚ)) && decide (250 < c.chapter_length fs)

/-- `Chapter.count_todos`: `len(re.findall(r'\bTODO\b', self.text, re.IGNORECASE))`. -/
def Chapter.count_todos (fs : FS) (c : Chapter) : ℕ :=
  todoCountAux none (c.getText fs).data

/-- `Chapter.count_comments`: `len(re.findall(r'%%', self.text, re.MULTILINE))`. -/
def Chapter.count_comments (fs : FS) (c : Chapter) : ℕ :=
  dpCount (c.getText fs).data

/-! ### ChapterCollection (`src/core/chapter.py`) -/

/-- `ChapterCollection.get_full_chapters`. -/
def get_full_chapters (fs : FS) (l : List Chapter) : List Chapter :=
  l.filter (fun ch => ch.is_full_chapter fs)

/-- `ChapterCollection.get_chapters_by_part`. -/
def get_chapters_by_part (l : List Chapter) (part : ℤ) : List Chapter :=
  l.filter (fun ch => decide (ch.part = part))

/-- `ChapterCollection.total_word_count`: sum of `chapter_length` over all
chapters. -/
def total_word_count (fs : FS) (l : List Chapter) : ℕ :=
  (l.map (fun ch => ch.chapter_length fs)).sum

/-- `ChapterCollection.number_of_acts`: 0 on an empty collection, else
`max(ch.part for ch in chapters)`. -/
def number_of_acts (l : List Chapter) : ℤ :=
  match l with
  | [] => 0
  | c :: rest => rest.foldl (fun a ch => max a ch.part) c.part

/-- `ChapterCollection.get_shortest_chapter`: `None` when there are no full
chapters, else Python `min(full_chapters, key=chapter_length)` (first minimal
element). -/
def get_shortest_chapter (fs : FS) (l : List Chapter) : Option Chapter :=
  match get_full_chapters fs l with
  | [] => none
  | c :: rest =>
    some (rest.foldl
      (fun best ch => if ch.chapter_length fs < best.chapter_length fs then ch else best) c)

/-- `ChapterCollection.get_longest_chapter`: `None` when there are no full
chapters, else Python `max(full_chapters, key=chapter_length)` (first maximal
element). -/
def get_longest_chapter (fs : FS) (l : List Chapter) : Option Chapter :=
  match get_full_chapters fs l with
  | [] => none
  | c :: rest =>
    some (rest.foldl
      (fun best ch => if best.chapter_length fs < ch.chapter_length fs then ch else best) c)

/-! ### Chapter loading (`src/BookBuilder.py`, `BookGenerator.load_chapters`) -/

/-- The body of the `for title in self.config.chapter_titles` loop:
`current_act` is incremented when the part-divider keyword occurs in the
title, BEFORE the chapter is constructed with `part=current_act`; the chapter
number is `len(self.chapter_collection.chapters) + 1`. -/
def load_chapters_aux (divider chaptersDir : String) (current_act : ℤ) (numLoaded : ℕ) :
    List String → List Chapter
  | [] => []
  | title :: rest =>
    let act := if hasSub divider.data title.data then current_act + 1 else current_act
    { chapter := ((numLoaded + 1 : ℕ) : ℚ), title := title,
      md_path := chaptersDir ++ "/" ++ title ++ ".md", part := act }
      :: load_chapters_aux divider chaptersDir act (numLoaded + 1) rest

/-- `BookGenerator.load_chapters`: iterate over the ordered title stream with
`current_act = 0` and an initially empty collection. -/
def load_chapters (divider chaptersDir : String) (titles : List String) : List Chapter :=
  load_chapters_aux divider chaptersDir 0 0 titles

/-! ### StatisticsService (`src/services/statistics.py`) -/

/-- `StatisticsConfig`. -/
structure StatisticsConfig where
  words_per_page : ℕ := 240
  csv_progress_enabled : Bool := true

/-- One entry of `stats['acts_stats']`. -/
structure ActStat where
  part : ℤ
  num_chapters : ℕ
  words : ℕ
  avg_chapter_length : ℚ
  todos : ℕ
  comments : ℕ
deriving DecidableEq

/-- The statistics dictionary built by `_calculate_statistics`; the keys that
are only conditionally present are `Option`-valued. -/
structure Stats where
  total_chapters : ℕ
  total_words : ℕ
  number_of_acts : ℤ
  acts_stats : List ActStat
  total_comments : ℕ
  total_todos : ℕ
  pages : Option ℚ
  avg_chapter_length : Option ℚ
  shortest_chapter : Option (ℤ × ℕ)
  longest_chapter : Option (ℤ × ℕ)
deriving DecidableEq

/-- The per-act record built inside the `for part in range(...)` loop. -/
def mkActStat (fs : FS) (p : ℤ) (cs : List Chapter) : ActStat :=
  { part := p
    num_chapters := cs.length
    words := (cs.map (fun ch => ch.chapter_length fs)).sum
    avg_chapter_length :=
      (((cs.map (fun ch => ch.chapter_length fs)).sum : ℕ) : ℚ) / ((cs.length : ℕ) : ℚ)
    todos := (cs.map (fun ch => ch.count_todos fs)).sum
    comments := (cs.map (fun ch => ch.count_comments fs)).sum }

/-- The part numbers iterated over: `range(stats['number_of_acts'] + 1)`. -/
def partRange (acts : ℤ) : List ℤ :=
  (List.range (acts + 1).toNat).map (fun k : ℕ => (k : ℤ))

/-- `StatisticsService._calculate_statistics`. The running `+=` accumulation
of `total_comments`/`total_todos` over the loop is written as the sum over
the accumulated `acts_stats` list, and the keys added only under
`if full_chapters:` become `some _` exactly in that case (`if shortest:` and
`if longest:` are always taken when reached, since a `Chapter` object is
truthy, which the `Option.map` reflects). -/
def calculate_statistics (cfg : StatisticsConfig) (fs : FS) (l : List Chapter) : Stats :=
  let full_chapters := get_full_chapters fs l
  let acts := number_of_acts l
  let acts_stats := (partRange acts).filterMap (fun p =>
    match get_chapters_by_part l p with
    | [] => none
    | cs => some (mkActStat fs p cs))
  { total_chapters := full_chapters.length
    total_words := total_word_count fs l
    number_of_acts := acts
    acts_stats := acts_stats
    total_comments := (acts_stats.map (fun a => a.comments)).sum
    total_todos := (acts_stats.map (fun a => a.todos)).sum
    pages :=
      if full_chapters.isEmpty then none
      else some ((total_word_count fs l : ℚ) / (cfg.words_per_page : ℚ))
    avg_chapter_length :=
      if full_chapters.isEmpty then none
      else some ((total_word_count fs l : ℚ) / (full_chapters.length : ℚ))
    shortest_chapter :=
      if full_chapters.isEmpty then none
      else (get_shortest_chapter fs l).map
        (fun ch => (pyInt ch.chapter, ch.chapter_length fs))
    longest_chapter :=
      if full_chapters.isEmpty then none
      else (get_longest_chapter fs l).map
        (fun ch => (pyInt ch.chapter, ch.chapter_length fs)) }

/-! ### Progress ledger (`StatisticsService._update_progress_csv`) -/

/-- One row of the progress CSV (`progress_data`), the timestamp column
modelled as an opaque natural number. -/
structure ProgressRow where
  timestamp : ℕ
  total_chapters : ℕ
  total_words : ℕ
  pages : ℤ
  avg_chapter_length : ℤ
  comments : ℕ
  todos : ℕ
deriving DecidableEq

/-- The single-row dataframe `df` built from the statistics dictionary:
`stats.get('pages', 0)` and `stats.get('avg_chapter_length', 0)` default the
absent keys to 0 before `int()` truncation. -/
def progressRow (st : Stats) (ts : ℕ) : ProgressRow :=
  { timestamp := ts
    total_chapters := st.total_chapters
    total_words := st.total_words
    pages := pyInt (st.pages.getD 0)
    avg_chapter_length := pyInt (st.avg_chapter_length.getD 0)
    comments := st.total_comments
    todos := st.total_todos }

/-- A CSV table as parsed by `pd.read_csv`: whether the `Total Words` column
is present, and the parsed rows. -/
structure CsvTable where
  hasTotalWordsCol : Bool
  rows : List ProgressRow
deriving DecidableEq

/-- `df_existing["Total Words"].values[-1]`, when it can be obtained: `none`
when the column is missing (`KeyError`) or there are no rows (`IndexError`). -/
def lastTotalWords (t : CsvTable) : Option ℕ :=
  if t.hasTotalWordsCol then (t.rows.map (fun r => r.total_words)).getLast? else none

/-- What `_update_progress_csv` does to the ledger file. -/
inductive UpdateOutcome where
  | wrote (rows : List ProgressRow)
  | skippedUnchanged
  | noFile
  | raised (warnedFirst : Bool) (msg : String)
deriving DecidableEq

/-- `StatisticsService._update_progress_csv`, given the state of the existing
ledger file: `none` when the file does not exist (the function then returns
without writing anything), `some (.error _)` when `pd.read_csv` raises (the
exception is not caught and propagates), `some (.ok t)` when the file parses.
In the parsed case, if the last row's `Total Words` cannot be read the bare
`except:` branch prints a warning and then calls `save()` with no arguments,
although `save` has two required positional parameters — Python raises
`TypeError` there, so nothing is written. Otherwise the row is appended (the
file is rewritten as existing rows followed by the new row) exactly when the
last recorded `Total Words` differs from the new row's. -/
def update_progress_csv (existing : Option (Except String CsvTable)) (row : ProgressRow) :
    UpdateOutcome :=
  match existing with
  | none => .noFile
  | some (.error msg) => .raised false msg
  | some (.ok t) =>
    match lastTotalWords t with
    | some w =>
      if w ≠ row.total_words then .wrote (t.rows ++ [row])
      else .skippedUnchanged
    | none =>
      .raised true "TypeError: save() missing 2 required positional arguments"

/-! ### Helper lemmas -/

lemma pythonRound_intCast (n : ℤ) : pythonRound (n : ℚ) = n := by
  simp [pythonRound, Int.floor_intCast]

lemma eq_pythonRound_iff (q : ℚ) : q = (pythonRound q : ℚ) ↔ q.den = 1 := by
  constructor
  · intro h
    rw [h]
    exact Rat.den_intCast _
  · intro h
    have hn := (Rat.den_eq_one_iff q).mp h
    calc q = ((q.num : ℚ)) := hn.symm
    _ = ((pythonRound (q.num : ℚ) : ℤ) : ℚ) := by rw [pythonRound_intCast]
    _ = ((pythonRound q : ℤ) : ℚ) := by rw [hn]

lemma dpCount_cons_ne (c : Char) (l : List Char) (h : c ≠ '%') :
    dpCount (c :: l) = dpCount l :=
  dpCount.eq_2 c l (fun _ h1 _ => h h1)

lemma dpCount_cons2 (c d : Char) (l : List Char) (h : ¬(c = '%' ∧ d = '%')) :
    dpCount (c :: d :: l) = dpCount (d :: l) :=
  dpCount.eq_2 c (d :: l) (fun _ h1 h2 => h ⟨h1, by injection h2⟩)

lemma dpCount_singleton (c : Char) : dpCount [c] = 0 :=
  (dpCount.eq_2 c [] (fun _ _ h2 => by injection h2)).trans rfl

lemma splitNlAux_cons_ne (c : Char) (l : List Char) (h : c ≠ '\n') :
    splitNlAux (c :: l) = (c :: (splitNlAux l).1, (splitNlAux l).2) := by
  simp [splitNlAux, h]

lemma splitNlAux_cons_nl (l : List Char) :
    splitNlAux ('\n' :: l) = ([], (splitNlAux l).1 :: (splitNlAux l).2) := by
  simp [splitNlAux]

/-- The left-to-right non-overlapping count of `%%` decomposes as the sum of
the counts over the lines: a match never spans a newline, because the pattern
contains none. -/
theorem dpCount_splitNlAux :
    ∀ l : List Char,
      dpCount l = dpCount (splitNlAux l).1 + (((splitNlAux l).2).map dpCount).sum
  | [] => by simp [dpCount, splitNlAux]
  | [c] => by
    by_cases hc : c = '\n'
    · subst hc
      rw [splitNlAux_cons_nl]
      simp [dpCount, splitNlAux]
    · rw [splitNlAux_cons_ne c [] hc]
      simp [splitNlAux, dpCount]
  | c :: d :: rest => by
    have ih1 := dpCount_splitNlAux (d :: rest)
    have ih2 := dpCount_splitNlAux rest
    by_cases hc : c = '\n'
    · subst hc
      rw [dpCount_cons_ne _ _ (by decide), splitNlAux_cons_nl]
      dsimp only
      simp only [List.map_cons, List.sum_cons]
      rw [show dpCount ([] : List Char) = 0 from rfl]
      omega
    · by_cases hcd : c = '%' ∧ d = '%'
      · obtain ⟨hc1, hd1⟩ := hcd
        subst hc1
        subst hd1
        rw [show dpCount ('%' :: '%' :: rest) = dpCount rest + 1 from by simp [dpCount],
          splitNlAux_cons_ne _ _ (by decide), splitNlAux_cons_ne _ _ (by decide)]
        dsimp only
        rw [show dpCount ('%' :: '%' :: (splitNlAux rest).1) = dpCount (splitNlAux rest).1 + 1
          from by simp [dpCount]]
        omega
      · rw [dpCount_cons2 c d rest hcd, splitNlAux_cons_ne c (d :: rest) hc]
        dsimp only
        by_cases hc2 : c = '%'
        · have hd : d ≠ '%' := fun hdp => hcd ⟨hc2, hdp⟩
          by_cases hdn : d = '\n'
          · subst hdn
            rw [dpCount_cons_ne _ _ (by decide), splitNlAux_cons_nl]
            dsimp only
            rw [dpCount_singleton]
            simp only [List.map_cons, List.sum_cons]
            omega
          · rw [splitNlAux_cons_ne d rest hdn] at ih1 ⊢
            dsimp only at ih1 ⊢
            rw [show dpCount (c :: d :: (splitNlAux rest).1) = dpCount (d :: (splitNlAux rest).1)
              from dpCount_cons2 c d _ (fun hp => hd hp.2)]
            exact ih1
        · rw [dpCount_cons_ne c _ hc2]
          exact ih1

/-- `dpCount` of a text is the sum of `dpCount` over its lines. -/
theorem dpCount_eq_sum_over_lines (l : List Char) :
    dpCount l = ((splitNl l).map dpCount).sum := by
  rw [splitNl]
  simpa using dpCount_splitNlAux l

/-- A filesystem with no readable files. -/
def fsEmpty : FS := fun _ => .notFound

/-- A chapter whose (cached) text is a single line holding the marker `%%`
twice: `"%% %%"`. -/
def chapterTwoMarkers : Chapter :=
  { chapter := 1, title := "cmt", md_path := "cmt.md",
    textCache := some "%% %%" }

/-- A fragment chapter numbered 3.5 with 1000 words (word count cached). -/
def chapterThreeFive : Chapter :=
  { chapter := 7/2, title := "fragment", md_path := "fragment.md",
    wordCountCache := some 1000 }

/-- A chapter numbered 4 with exactly 250 words (word count cached). -/
def chapterFour : Chapter :=
  { chapter := 4, title := "four", md_path := "four.md",
    wordCountCache := some 250 }

/-! ### Claims -/

/-- C3: `is_full_chapter` is true iff the chapter number has zero fractional
part (denominator 1 as a rational) and the word count is strictly greater
than 250; in particular it is false for number 3.5 with 1000 words and false
for number 4 with exactly 250 words. -/
theorem C3_is_full_chapter_iff (fs : FS) (c : Chapter) :
    (c.is_full_chapter fs = true ↔ c.chapter.den = 1 ∧ 250 < c.chapter_length fs)
    ∧ chapterThreeFive.is_full_chapter fs = false
    ∧ chapterFour.is_full_chapter fs = false := by
  refine ⟨?_, ?_, ?_⟩
  · simp [Chapter.is_full_chapter, ← eq_pythonRound_iff]
  · simp [Chapter.is_full_chapter, chapterThreeFive, Chapter.chapter_length]
    intro h
    rw [eq_pythonRound_iff] at h
    norm_num [Rat.den] at h
  · simp [Chapter.is_full_chapter, chapterFour, Chapter.chapter_length]

/-- C5 counterexample: on the one-line text `"%% %%"` (the marker twice on a
single line) `count_comments` returns 2, while the number of lines containing
the marker is 1 — so `count_comments` is not a per-line count. -/
theorem C5_counterexample :
    chapterTwoMarkers.count_comments fsEmpty = 2
    ∧ linesContainingMarker (chapterTwoMarkers.getText fsEmpty) = 1
    ∧ chapterTwoMarkers.count_comments fsEmpty ≠
        linesContainingMarker (chapterTwoMarkers.getText fsEmpty) := by
  refine ⟨by decide, by decide, by decide⟩

/-- C5 (amended): `count_comments` returns the number of non-overlapping
occurrences of the literal marker `%%` in the chapter's text, scanned left to
right; equivalently the sum over the text's lines of the number of
occurrences in each line (a line counts once per occurrence, not once per
line; no match spans a newline). -/
theorem C5_count_comments_per_line (fs : FS) (c : Chapter) :
    c.count_comments fs = ((splitNl (c.getText fs).data).map dpCount).sum :=
  dpCount_eq_sum_over_lines _

/-- A chapter with no cached text, pointing at a missing source file under
`fsEmpty`. -/
def chapterFresh : Chapter :=
  { chapter := 2, title := "fresh", md_path := "missing.md" }

/-- A filesystem on which every read raises an `IOError`. -/
def fsBroken : FS := fun _ => .ioError "disk failure"

/-- C8 counterexample: on a missing source file (an uncached chapter read
against a filesystem where the path does not exist) the `text` property
returns the empty string but emits NO diagnostic — the log is empty — so the
statement that a diagnostic is emitted on any read failure, missing file
included, is false of the code: `_load_text` returns `""` before the
`try`/`except IOError` block when `os.path.exists` is false, and only the
`IOError` handler prints. -/
theorem C8_counterexample :
    (chapterFresh.textGet fsEmpty).value = ""
    ∧ (chapterFresh.textGet fsEmpty).log = [] :=
  ⟨rfl, rfl⟩

/-- C8 (amended): the `text` property returns the cached text unchanged when
present; with an empty cache, a missing file or an I/O error yields the empty
string (no exception — the embedding is total), and the obtained result is
cached; a diagnostic is printed only in the I/O-error case, while a missing
file degrades silently; after any first access the chapter answers from its
cache for any later filesystem state, so the source is read at most once for
the life of the object. -/
theorem C8_text_cached_and_degrading (fs : FS) (c : Chapter) :
    (∀ t, c.textCache = some t → c.textGet fs = ⟨t, c, []⟩)
    ∧ (c.textCache = none → fs c.md_path = .notFound →
        c.textGet fs = ⟨"", { c with textCache := some "" }, []⟩)
    ∧ (c.textCache = none → ∀ msg, fs c.md_path = .ioError msg →
        (c.textGet fs).value = ""
          ∧ (c.textGet fs).self = { c with textCache := some "" }
          ∧ (c.textGet fs).log ≠ [])
    ∧ (∀ fs2 : FS, (c.textGet fs).self.textGet fs2 =
        ⟨(c.textGet fs).value, (c.textGet fs).self, []⟩) := by
  refine ⟨?_, ?_, ?_, ?_⟩
  · intro t ht
    simp [Chapter.textGet, ht]
  · intro h1 h2
    simp [Chapter.textGet, h1, loadText, h2]
  · intro h1 msg h2
    simp [Chapter.textGet, h1, loadText, h2]
  · intro fs2
    match hc : c.textCache with
    | some t => simp [Chapter.textGet, hc]
    | none => simp [Chapter.textGet, hc, loadText]

/-- Witness for C8 at concrete inputs: a cached chapter is returned as is; a
fresh chapter on a missing file degrades to the empty string and caches it;
a fresh chapter on a failing filesystem degrades to the empty string with a
nonempty diagnostic log. -/
theorem C8_witness :
    chapterTwoMarkers.textGet fsEmpty = ⟨"%% %%", chapterTwoMarkers, []⟩
    ∧ chapterFresh.textGet fsEmpty = ⟨"", { chapterFresh with textCache := some "" }, []⟩
    ∧ (chapterFresh.textGet fsBroken).value = ""
    ∧ (chapterFresh.textGet fsBroken).log ≠ [] :=
  ⟨(C8_text_cached_and_degrading fsEmpty chapterTwoMarkers).1 "%% %%" rfl,
   (C8_text_cached_and_degrading fsEmpty chapterFresh).2.1 rfl rfl,
   ((C8_text_cached_and_degrading fsBroken chapterFresh).2.2.1 rfl "disk failure" rfl).1,
   ((C8_text_cached_and_degrading fsBroken chapterFresh).2.2.1 rfl "disk failure" rfl).2.2⟩

lemma foldl_min_mem (fs : FS) :
    ∀ (t : List Chapter) (b : Chapter),
      t.foldl (fun best ch => if ch.chapter_length fs < best.chapter_length fs then ch else best) b
        ∈ b :: t
  | [], b => by simp
  | c :: t, b => by
    simp only [List.foldl_cons]
    have ih := foldl_min_mem fs t (if c.chapter_length fs < b.chapter_length fs then c else b)
    rcases List.mem_cons.mp ih with h | h
    · rw [h]
      split
      · simp
      · simp
    · simp [h]

lemma foldl_min_le (fs : FS) :
    ∀ (t : List Chapter) (b : Chapter) (ch : Chapter), ch ∈ b :: t →
      (t.foldl (fun best ch => if ch.chapter_length fs < best.chapter_length fs then ch else best)
          b).chapter_length fs ≤ ch.chapter_length fs
  | [], b, ch, h => by
    simp at h
    simp [h]
  | c :: t, b, ch, h => by
    simp only [List.foldl_cons]
    have ihb := foldl_min_le fs t (if c.chapter_length fs < b.chapter_length fs then c else b)
      (if c.chapter_length fs < b.chapter_length fs then c else b) (by simp)
    rcases List.mem_cons.mp h with h1 | h1
    · subst h1
      refine le_trans ihb ?_
      split
      · omega
      · omega
    · rcases List.mem_cons.mp h1 with h2 | h2
      · subst h2
        refine le_trans ihb ?_
        split
        · omega
        · omega
      · exact foldl_min_le fs t _ ch (List.mem_cons_of_mem _ h2)

lemma foldl_max_mem (fs : FS) :
    ∀ (t : List Chapter) (b : Chapter),
      t.foldl (fun best ch => if best.chapter_length fs < ch.chapter_length fs then ch else best) b
        ∈ b :: t
  | [], b => by simp
  | c :: t, b => by
    simp only [List.foldl_cons]
    have ih := foldl_max_mem fs t (if b.chapter_length fs < c.chapter_length fs then c else b)
    rcases List.mem_cons.mp ih with h | h
    · rw [h]
      split
      · simp
      · simp
    · simp [h]

lemma foldl_max_ge (fs : FS) :
    ∀ (t : List Chapter) (b : Chapter) (ch : Chapter), ch ∈ b :: t →
      ch.chapter_length fs ≤
        (t.foldl (fun best ch => if best.chapter_length fs < ch.chapter_length fs then ch else best)
          b).chapter_length fs
  | [], b, ch, h => by
    simp at h
    simp [h]
  | c :: t, b, ch, h => by
    simp only [List.foldl_cons]
    have ihb := foldl_max_ge fs t (if b.chapter_length fs < c.chapter_length fs then c else b)
      (if b.chapter_length fs < c.chapter_length fs then c else b) (by simp)
    rcases List.mem_cons.mp h with h1 | h1
    · subst h1
      refine le_trans ?_ ihb
      split
      · omega
      · omega
    · rcases List.mem_cons.mp h1 with h2 | h2
      · subst h2
        refine le_trans ?_ ihb
        split
        · omega
        · omega
      · exact foldl_max_ge fs t _ ch (List.mem_cons_of_mem _ h2)

/-- C9: on a collection with no full chapters — fragments or not — both
`get_shortest_chapter` and `get_longest_chapter` return `none`; when full
chapters exist they return a full chapter of the collection of minimum
(respectively maximum) word count among the full chapters. -/
theorem C9_shortest_longest (fs : FS) (l : List Chapter) :
    (get_full_chapters fs l = [] →
      get_shortest_chapter fs l = none ∧ get_longest_chapter fs l = none)
    ∧ (get_full_chapters fs l ≠ [] →
        (∃ s, get_shortest_chapter fs l = some s ∧ s ∈ get_full_chapters fs l ∧
          ∀ ch ∈ get_full_chapters fs l, s.chapter_length fs ≤ ch.chapter_length fs)
        ∧ (∃ g, get_longest_chapter fs l = some g ∧ g ∈ get_full_chapters fs l ∧
          ∀ ch ∈ get_full_chapters fs l, ch.chapter_length fs ≤ g.chapter_length fs)) := by
  constructor
  · intro h
    simp [get_shortest_chapter, get_longest_chapter, h]
  · intro h
    match hf : get_full_chapters fs l with
    | [] => exact absurd hf h
    | c :: rest =>
      constructor
      · refine ⟨rest.foldl
          (fun best ch => if ch.chapter_length fs < best.chapter_length fs then ch else best) c,
          ?_, ?_, ?_⟩
        · unfold get_shortest_chapter
          rw [hf]
        · exact foldl_min_mem fs rest c
        · intro ch hch
          exact foldl_min_le fs rest c ch hch
      · refine ⟨rest.foldl
          (fun best ch => if best.chapter_length fs < ch.chapter_length fs then ch else best) c,
          ?_, ?_, ?_⟩
        · unfold get_longest_chapter
          rw [hf]
        · exact foldl_max_mem fs rest c
        · intro ch hch
          exact foldl_max_ge fs rest c ch hch

/-- A full chapter: whole number and 300 cached words. -/
def chapterFull : Chapter :=
  { chapter := 1, title := "full", md_path := "full.md", wordCountCache := some 300 }

lemma chapterFull_is_full (fs : FS) : chapterFull.is_full_chapter fs = true := by
  simp [Chapter.is_full_chapter, chapterFull, Chapter.chapter_length, eq_pythonRound_iff]

lemma chapterThreeFive_not_full (fs : FS) : chapterThreeFive.is_full_chapter fs = false := by
  simp [Chapter.is_full_chapter, chapterThreeFive, Chapter.chapter_length, eq_pythonRound_iff]
  norm_num [Rat.den]

lemma gfc_pair :
    get_full_chapters fsEmpty [chapterFull, chapterThreeFive] = [chapterFull] := by
  simp [get_full_chapters, chapterFull_is_full, chapterThreeFive_not_full]

lemma gfc_fragment_only : get_full_chapters fsEmpty [chapterThreeFive] = [] := by
  simp [get_full_chapters, chapterThreeFive_not_full]

/-- Witness for C9: on `[chapterFull, chapterThreeFive]` (one full chapter,
one fragment) the full-chapter list is nonempty and the shortest chapter is a
minimal full chapter; on the fragment-only collection `[chapterThreeFive]`
both queries return `none`. -/
theorem C9_witness :
    (∃ s, get_shortest_chapter fsEmpty [chapterFull, chapterThreeFive] = some s
      ∧ s ∈ get_full_chapters fsEmpty [chapterFull, chapterThreeFive]
      ∧ ∀ ch ∈ get_full_chapters fsEmpty [chapterFull, chapterThreeFive],
          s.chapter_length fsEmpty ≤ ch.chapter_length fsEmpty)
    ∧ get_shortest_chapter fsEmpty [chapterThreeFive] = none
    ∧ get_longest_chapter fsEmpty [chapterThreeFive] = none :=
  ⟨((C9_shortest_longest fsEmpty [chapterFull, chapterThreeFive]).2 (by simp [gfc_pair])).1,
   ((C9_shortest_longest fsEmpty [chapterThreeFive]).1 gfc_fragment_only).1,
   ((C9_shortest_longest fsEmpty [chapterThreeFive]).1 gfc_fragment_only).2⟩

lemma load_chapters_aux_length (d dir : String) :
    ∀ (ts : List String) (a : ℤ) (n : ℕ),
      (load_chapters_aux d dir a n ts).length = ts.length
  | [], _, _ => rfl
  | t :: rest, a, n => by
    simp only [load_chapters_aux, List.length_cons]
    rw [load_chapters_aux_length d dir rest _ _]

lemma load_chapters_aux_getElem (d dir : String) :
    ∀ (ts : List String) (a : ℤ) (n : ℕ) (i : ℕ) (t : String), ts[i]? = some t →
      (load_chapters_aux d dir a n ts)[i]? = some
        { chapter := ((n + i + 1 : ℕ) : ℚ), title := t,
          md_path := dir ++ "/" ++ t ++ ".md",
          part := a + (((ts.take (i + 1)).filter (fun s => hasSub d.data s.data)).length : ℤ) }
  | [], _, _, i, t, h => by simp at h
  | s :: rest, a, n, 0, t, h => by
    simp only [List.getElem?_cons_zero, Option.some.injEq] at h
    subst h
    simp only [load_chapters_aux, List.getElem?_cons_zero, List.take_succ_cons,
      List.take_zero]
    rw [Option.some.injEq, Chapter.mk.injEq]
    refine ⟨by norm_num, rfl, rfl, ?_, rfl, rfl⟩
    by_cases hd : hasSub d.data s.data
    · simp [hd]
    · simp [hd]
  | s :: rest, a, n, i + 1, t, h => by
    simp only [List.getElem?_cons_succ] at h
    have ih := load_chapters_aux_getElem d dir rest
      (if hasSub d.data s.data then a + 1 else a) (n + 1) i t h
    simp only [load_chapters_aux, List.getElem?_cons_succ]
    rw [ih, Option.some.injEq, Chapter.mk.injEq]
    refine ⟨by push_cast; ring, rfl, rfl, ?_, rfl, rfl⟩
    rw [List.take_succ_cons]
    by_cases hd : hasSub d.data s.data
    · simp only [List.filter_cons, hd, if_pos, List.length_cons]
      push_cast
      ring
    · simp [hd]

/-- C6: `load_chapters` creates one chapter per title in order, and the
part assigned to the i-th chapter equals the number of titles among the
first i+1 (the chapter's own title INCLUDED) that contain the part-divider
keyword as a substring: the divider is detected and the counter incremented
before the chapter is constructed, so the divider-carrying chapter belongs
to the new part and subsequent chapters inherit it until the next divider. -/
theorem C6_part_divider (divider chaptersDir : String) (titles : List String) :
    (load_chapters divider chaptersDir titles).length = titles.length
    ∧ ∀ (i : ℕ) (t : String), titles[i]? = some t →
        (load_chapters divider chaptersDir titles)[i]? = some
          { chapter := ((i + 1 : ℕ) : ℚ), title := t,
            md_path := chaptersDir ++ "/" ++ t ++ ".md",
            part := (((titles.take (i + 1)).filter
              (fun s => hasSub divider.data s.data)).length : ℤ) } := by
  constructor
  · exact load_chapters_aux_length divider chaptersDir titles 0 0
  · intro i t h
    have := load_chapters_aux_getElem divider chaptersDir titles 0 0 i t h
    simpa [load_chapters] using this

/-- Witness for C6 on the title stream
`["Intro", "Part One", "Epilogue"]` with divider `"Part"`: the middle title
carries the divider and is assigned part 1 (the new part), and the following
title inherits part 1 while the first stays in part 0. -/
theorem C6_witness :
    (load_chapters "Part" "chapters" ["Intro", "Part One", "Epilogue"])[0]? = some
      { chapter := ((1 : ℕ) : ℚ), title := "Intro",
        md_path := "chapters" ++ "/" ++ "Intro" ++ ".md", part := (0 : ℤ) }
    ∧ (load_chapters "Part" "chapters" ["Intro", "Part One", "Epilogue"])[1]? = some
      { chapter := ((2 : ℕ) : ℚ), title := "Part One",
        md_path := "chapters" ++ "/" ++ "Part One" ++ ".md", part := (1 : ℤ) }
    ∧ (load_chapters "Part" "chapters" ["Intro", "Part One", "Epilogue"])[2]? = some
      { chapter := ((3 : ℕ) : ℚ), title := "Epilogue",
        md_path := "chapters" ++ "/" ++ "Epilogue" ++ ".md", part := (1 : ℤ) } := by
  have h0 := (C6_part_divider "Part" "chapters" ["Intro", "Part One", "Epilogue"]).2 0
    "Intro" (by decide)
  have h1 := (C6_part_divider "Part" "chapters" ["Intro", "Part One", "Epilogue"]).2 1
    "Part One" (by decide)
  have h2 := (C6_part_divider "Part" "chapters" ["Intro", "Part One", "Epilogue"]).2 2
    "Epilogue" (by decide)
  refine ⟨?_, ?_, ?_⟩
  · rw [h0, Option.some.injEq, Chapter.mk.injEq]
    refine ⟨by norm_num, rfl, rfl, by decide, rfl, rfl⟩
  · rw [h1, Option.some.injEq, Chapter.mk.injEq]
    refine ⟨by norm_num, rfl, rfl, by decide, rfl, rfl⟩
  · rw [h2, Option.some.injEq, Chapter.mk.injEq]
    refine ⟨by norm_num, rfl, rfl, by decide, rfl, rfl⟩

lemma le_foldl_max : ∀ (t : List Chapter) (a : ℤ),
    a ≤ t.foldl (fun x ch => max x ch.part) a
  | [], _ => le_refl _
  | c :: t, a =>
    le_trans (le_max_left a c.part) (le_foldl_max t (max a c.part))

lemma part_le_foldl_max : ∀ (t : List Chapter) (a : ℤ) (c : Chapter), c ∈ t →
    c.part ≤ t.foldl (fun x ch => max x ch.part) a
  | c' :: t, a, c, h => by
    rcases List.mem_cons.mp h with h1 | h1
    · subst h1
      exact le_trans (le_max_right a c.part) (le_foldl_max t _)
    · exact part_le_foldl_max t _ c h1

lemma foldl_max_eq_or : ∀ (t : List Chapter) (a : ℤ),
    t.foldl (fun x ch => max x ch.part) a = a
      ∨ ∃ c ∈ t, t.foldl (fun x ch => max x ch.part) a = c.part
  | [], _ => Or.inl rfl
  | c' :: t, a => by
    simp only [List.foldl_cons]
    rcases foldl_max_eq_or t (max a c'.part) with h | ⟨c, hc, he⟩
    · rcases max_choice a c'.part with hm | hm
      · exact Or.inl (h.trans hm)
      · exact Or.inr ⟨c', List.mem_cons_self c' t, h.trans hm⟩
    · exact Or.inr ⟨c, List.mem_cons_of_mem _ hc, he⟩

lemma number_of_acts_nil : number_of_acts [] = 0 := rfl

lemma part_le_number_of_acts (l : List Chapter) (c : Chapter) (hc : c ∈ l) :
    c.part ≤ number_of_acts l := by
  match l, hc with
  | c' :: t, hc =>
    rcases List.mem_cons.mp hc with h1 | h1
    · subst h1
      exact le_foldl_max t c.part
    · exact part_le_foldl_max t c'.part c h1

lemma number_of_acts_mem (l : List Chapter) (hl : l ≠ []) :
    ∃ c ∈ l, number_of_acts l = c.part := by
  match l with
  | c' :: t =>
    rcases foldl_max_eq_or t c'.part with h | ⟨c, hc, he⟩
    · exact ⟨c', List.mem_cons_self c' t, h⟩
    · exact ⟨c, List.mem_cons_of_mem _ hc, he⟩

lemma mem_partRange (acts p : ℤ) : p ∈ partRange acts ↔ 0 ≤ p ∧ p ≤ acts := by
  rw [partRange]
  constructor
  · intro h
    obtain ⟨k, hk, he⟩ := List.mem_map.mp h
    rw [List.mem_range] at hk
    omega
  · intro h
    refine List.mem_map.mpr ⟨p.toNat, ?_, ?_⟩
    · rw [List.mem_range]
      omega
    · omega

lemma partRange_nodup (acts : ℤ) : (partRange acts).Nodup := by
  rw [partRange]
  refine List.Nodup.map ?_ (List.nodup_range _)
  intro a b h
  simpa using h

/-- Projection of the acts list out of `calculate_statistics`. -/
lemma calc_acts_stats (cfg : StatisticsConfig) (fs : FS) (l : List Chapter) :
    (calculate_statistics cfg fs l).acts_stats =
      (partRange (number_of_acts l)).filterMap (fun p =>
        match get_chapters_by_part l p with
        | [] => none
        | cs => some (mkActStat fs p cs)) := rfl

lemma calc_number_of_acts (cfg : StatisticsConfig) (fs : FS) (l : List Chapter) :
    (calculate_statistics cfg fs l).number_of_acts = number_of_acts l := rfl

lemma actstat_fun_eq (fs : FS) (l : List Chapter) (p : ℤ) (r : ActStat) :
    ((match get_chapters_by_part l p with
      | [] => none
      | cs => some (mkActStat fs p cs)) = some r) ↔
      (get_chapters_by_part l p ≠ [] ∧ r = mkActStat fs p (get_chapters_by_part l p)) := by
  cases hcs : get_chapters_by_part l p with
  | nil => simp
  | cons x xs => simp [eq_comm]

/-- C7: the acts list of the computed statistics has one record exactly for
every part number `p` in `0..actCount` (inclusive) that has at least one
chapter, where `actCount` is 0 on an empty collection and the maximum `part`
over the chapters otherwise; parts without chapters produce no record, and
every record describes a nonempty chapter list, so its average is a division
by a nonzero count. -/
theorem C7_acts_stats (cfg : StatisticsConfig) (fs : FS) (l : List Chapter) :
    (calculate_statistics cfg fs l).number_of_acts = number_of_acts l
    ∧ number_of_acts [] = 0
    ∧ (∀ c ∈ l, c.part ≤ number_of_acts l)
    ∧ (l ≠ [] → ∃ c ∈ l, number_of_acts l = c.part)
    ∧ (∀ p : ℤ, (∃ r ∈ (calculate_statistics cfg fs l).acts_stats, r.part = p) ↔
        (0 ≤ p ∧ p ≤ number_of_acts l ∧ get_chapters_by_part l p ≠ []))
    ∧ (∀ r ∈ (calculate_statistics cfg fs l).acts_stats,
        r.num_chapters = (get_chapters_by_part l r.part).length
        ∧ r.num_chapters ≠ 0
        ∧ r.avg_chapter_length = (r.words : ℚ) / (r.num_chapters : ℚ)) := by
  refine ⟨rfl, rfl, fun c hc => part_le_number_of_acts l c hc, number_of_acts_mem l, ?_, ?_⟩
  · intro p
    rw [calc_acts_stats]
    constructor
    · rintro ⟨r, hr, rfl⟩
      obtain ⟨q, hq, hfq⟩ := List.mem_filterMap.mp hr
      obtain ⟨hne, hrq⟩ := (actstat_fun_eq fs l q r).mp hfq
      have hqp : r.part = q := by rw [hrq]; rfl
      rw [hqp]
      obtain ⟨h0, h1⟩ := (mem_partRange _ q).mp hq
      exact ⟨h0, h1, hne⟩
    · rintro ⟨h0, h1, hne⟩
      refine ⟨mkActStat fs p (get_chapters_by_part l p), ?_, rfl⟩
      refine List.mem_filterMap.mpr ⟨p, (mem_partRange _ p).mpr ⟨h0, h1⟩, ?_⟩
      exact (actstat_fun_eq fs l p _).mpr ⟨hne, rfl⟩
  · intro r hr
    rw [calc_acts_stats] at hr
    obtain ⟨q, _, hfq⟩ := List.mem_filterMap.mp hr
    obtain ⟨hne, hrq⟩ := (actstat_fun_eq fs l q r).mp hfq
    have hqp : r.part = q := by rw [hrq]; rfl
    subst hrq
    refine ⟨?_, ?_, rfl⟩
    · rw [hqp]
      rfl
    · simpa [mkActStat] using fun hmm => hne (List.length_eq_zero.mp hmm)

/-- A chapter in part 2 (part 1 stays empty in the C7 witness collection). -/
def chapterPartTwo : Chapter :=
  { chapter := 2, title := "two", md_path := "two.md", part := 2,
    wordCountCache := some 400 }

/-- Witness for C7 on `[chapterFull, chapterPartTwo]` (parts 0 and 2, part 1
empty): a record exists for part 2, none exists for the chapter-less part 1,
and the empty collection has act count 0. -/
theorem C7_witness :
    (∃ r ∈ (calculate_statistics {} fsEmpty [chapterFull, chapterPartTwo]).acts_stats,
      r.part = 2)
    ∧ ¬(∃ r ∈ (calculate_statistics {} fsEmpty [chapterFull, chapterPartTwo]).acts_stats,
      r.part = 1)
    ∧ (∃ c ∈ [chapterFull, chapterPartTwo],
        number_of_acts [chapterFull, chapterPartTwo] = c.part) := by
  refine ⟨?_, ?_, ?_⟩
  · exact ((C7_acts_stats {} fsEmpty [chapterFull, chapterPartTwo]).2.2.2.2.1 2).mpr
      (by refine ⟨by decide, by decide, by decide⟩)
  · intro hex
    have h := ((C7_acts_stats {} fsEmpty [chapterFull, chapterPartTwo]).2.2.2.2.1 1).mp hex
    revert h
    decide
  · exact (C7_acts_stats {} fsEmpty [chapterFull, chapterPartTwo]).2.2.2.1 (by decide)

lemma sum_map_ite_zero (v : ℕ) (x : ℤ) :
    ∀ ps : List ℤ, x ∉ ps → (ps.map (fun p => if x = p then v else 0)).sum = 0
  | [], _ => rfl
  | p :: ps, h => by
    have hx : x ≠ p := fun he => h (he ▸ List.mem_cons_self p ps)
    simp only [List.map_cons, List.sum_cons, if_neg hx]
    rw [sum_map_ite_zero v x ps (fun hm => h (List.mem_cons_of_mem _ hm))]

lemma sum_map_ite_mem (v : ℕ) (x : ℤ) :
    ∀ ps : List ℤ, ps.Nodup → x ∈ ps → (ps.map (fun p => if x = p then v else 0)).sum = v
  | [], _, h => absurd h (List.not_mem_nil x)
  | p :: ps, hnd, h => by
    simp only [List.map_cons, List.sum_cons]
    rcases List.mem_cons.mp h with h1 | h1
    · subst h1
      rw [if_pos rfl, sum_map_ite_zero v x ps (List.nodup_cons.mp hnd).1]
      omega
    · have hx : x ≠ p := by
        intro he
        subst he
        exact (List.nodup_cons.mp hnd).1 h1
      rw [if_neg hx, sum_map_ite_mem v x ps (List.nodup_cons.mp hnd).2 h1]
      omega

lemma sum_map_add_split {α : Type} (f g : α → ℕ) :
    ∀ ps : List α, (ps.map (fun p => f p + g p)).sum = (ps.map f).sum + (ps.map g).sum
  | [] => rfl
  | p :: ps => by
    simp only [List.map_cons, List.sum_cons]
    rw [sum_map_add_split f g ps]
    ring

/-- Summing any per-chapter quantity bucket-by-bucket over a duplicate-free
list of part numbers that covers every chapter's part gives the sum over the
whole collection. -/
lemma sum_over_parts (F : Chapter → ℕ) :
    ∀ (l : List Chapter) (ps : List ℤ), ps.Nodup → (∀ c ∈ l, c.part ∈ ps) →
      (ps.map (fun p => ((get_chapters_by_part l p).map F).sum)).sum = (l.map F).sum
  | [], ps, _, _ => by
    simp [get_chapters_by_part]
  | c :: l, ps, hnd, hcov => by
    have ih := sum_over_parts F l ps hnd (fun x hx => hcov x (List.mem_cons_of_mem _ hx))
    have hsplit : ∀ p : ℤ, ((get_chapters_by_part (c :: l) p).map F).sum
        = (if c.part = p then F c else 0) + ((get_chapters_by_part l p).map F).sum := by
      intro p
      by_cases hc : c.part = p
      · simp [get_chapters_by_part, List.filter_cons, hc]
      · simp [get_chapters_by_part, List.filter_cons, hc]
    simp only [hsplit]
    rw [sum_map_add_split, ih, sum_map_ite_mem (F c) c.part ps hnd
      (hcov c (List.mem_cons_self c l)), List.map_cons, List.sum_cons]

lemma filterMap_actstat_sum (fs : FS) (l : List Chapter) (proj : ActStat → ℕ)
    (F : Chapter → ℕ) (hproj : ∀ p cs, proj (mkActStat fs p cs) = (cs.map F).sum) :
    ∀ ps : List ℤ,
      ((ps.filterMap (fun p =>
        match get_chapters_by_part l p with
        | [] => none
        | cs => some (mkActStat fs p cs))).map proj).sum
      = (ps.map (fun p => ((get_chapters_by_part l p).map F).sum)).sum
  | [] => rfl
  | p :: ps => by
    have ih := filterMap_actstat_sum fs l proj F hproj ps
    cases hcs : get_chapters_by_part l p with
    | nil =>
      simp only [List.filterMap_cons, hcs, List.map_cons, List.sum_cons]
      rw [ih]
      simp
    | cons x xs =>
      simp only [List.filterMap_cons, hcs, List.map_cons, List.sum_cons]
      rw [ih, hproj p (x :: xs)]
      simp

/-- C4: in the computed statistics, `total_chapters` counts only the full
chapters, while `total_words`, `total_todos` and `total_comments` are sums
over ALL chapters of the collection — fragments included — because the
per-part accumulation covers every chapter (parts are non-negative in the
program, each part is at most the act count, and the loop runs over
`0..actCount`). -/
theorem C4_totals (cfg : StatisticsConfig) (fs : FS) (l : List Chapter)
    (hpos : ∀ c ∈ l, 0 ≤ c.part) :
    (calculate_statistics cfg fs l).total_chapters = (get_full_chapters fs l).length
    ∧ (calculate_statistics cfg fs l).total_words =
        (l.map (fun c => c.chapter_length fs)).sum
    ∧ (calculate_statistics cfg fs l).total_todos =
        (l.map (fun c => c.count_todos fs)).sum
    ∧ (calculate_statistics cfg fs l).total_comments =
        (l.map (fun c => c.count_comments fs)).sum := by
  have hcov : ∀ c ∈ l, c.part ∈ partRange (number_of_acts l) := by
    intro c hc
    exact (mem_partRange _ _).mpr ⟨hpos c hc, part_le_number_of_acts l c hc⟩
  refine ⟨rfl, rfl, ?_, ?_⟩
  · show ((((partRange (number_of_acts l)).filterMap _).map _).sum : ℕ) = _
    rw [filterMap_actstat_sum fs l (fun a => a.todos) (fun c => c.count_todos fs)
      (fun p cs => rfl) (partRange (number_of_acts l))]
    exact sum_over_parts _ l _ (partRange_nodup _) hcov
  · show ((((partRange (number_of_acts l)).filterMap _).map _).sum : ℕ) = _
    rw [filterMap_actstat_sum fs l (fun a => a.comments) (fun c => c.count_comments fs)
      (fun p cs => rfl) (partRange (number_of_acts l))]
    exact sum_over_parts _ l _ (partRange_nodup _) hcov

/-- Witness for C4 on `[chapterFull, chapterThreeFive, chapterPartTwo]` (two
full chapters, one fragment, parts 0 and 2): the totals computed by
`calculate_statistics` match the unfiltered sums. -/
theorem C4_witness :
    (calculate_statistics {} fsEmpty [chapterFull, chapterThreeFive, chapterPartTwo]).total_chapters
      = (get_full_chapters fsEmpty [chapterFull, chapterThreeFive, chapterPartTwo]).length
    ∧ (calculate_statistics {} fsEmpty
        [chapterFull, chapterThreeFive, chapterPartTwo]).total_words
      = ([chapterFull, chapterThreeFive, chapterPartTwo].map
          (fun c => c.chapter_length fsEmpty)).sum
    ∧ (calculate_statistics {} fsEmpty
        [chapterFull, chapterThreeFive, chapterPartTwo]).total_todos
      = ([chapterFull, chapterThreeFive, chapterPartTwo].map
          (fun c => c.count_todos fsEmpty)).sum
    ∧ (calculate_statistics {} fsEmpty
        [chapterFull, chapterThreeFive, chapterPartTwo]).total_comments
      = ([chapterFull, chapterThreeFive, chapterPartTwo].map
          (fun c => c.count_comments fsEmpty)).sum :=
  C4_totals {} fsEmpty [chapterFull, chapterThreeFive, chapterPartTwo] (by decide)

lemma pyInt_zero : pyInt 0 = 0 := by
  norm_num [pyInt]

/-- C10: when the collection has no full chapters the computed statistics
omit the pages, average-chapter-length, shortest-chapter and longest-chapter
entries entirely (and count zero full chapters), yet the progress-ledger row
built from those statistics records `Pages = 0` and
`Average Chapter Length = 0` — defaulted zeros, not absent values — next to
the true word, comment and todo totals. -/
theorem C10_no_full_chapters_defaults (cfg : StatisticsConfig) (fs : FS) (l : List Chapter)
    (ts : ℕ) (h : get_full_chapters fs l = []) :
    (calculate_statistics cfg fs l).pages = none
    ∧ (calculate_statistics cfg fs l).avg_chapter_length = none
    ∧ (calculate_statistics cfg fs l).shortest_chapter = none
    ∧ (calculate_statistics cfg fs l).longest_chapter = none
    ∧ (calculate_statistics cfg fs l).total_chapters = 0
    ∧ progressRow (calculate_statistics cfg fs l) ts =
        { timestamp := ts
          total_chapters := 0
          total_words := (calculate_statistics cfg fs l).total_words
          pages := 0
          avg_chapter_length := 0
          comments := (calculate_statistics cfg fs l).total_comments
          todos := (calculate_statistics cfg fs l).total_todos } := by
  have h1 : (calculate_statistics cfg fs l).pages = none := by
    simp [calculate_statistics, h]
  have h2 : (calculate_statistics cfg fs l).avg_chapter_length = none := by
    simp [calculate_statistics, h]
  have h5 : (calculate_statistics cfg fs l).total_chapters = 0 := by
    simp [calculate_statistics, h]
  refine ⟨h1, h2, by simp [calculate_statistics, h], by simp [calculate_statistics, h], h5, ?_⟩
  rw [progressRow, ProgressRow.mk.injEq]
  refine ⟨rfl, h5, rfl, ?_, ?_, rfl, rfl⟩
  · rw [h1]
    exact pyInt_zero
  · rw [h2]
    exact pyInt_zero

/-- Witness for C10: the fragment-only collection `[chapterThreeFive]` has
no page/average/shortest/longest entries but its ledger row holds zeros. -/
theorem C10_witness :
    (calculate_statistics {} fsEmpty [chapterThreeFive]).pages = none
    ∧ (calculate_statistics {} fsEmpty [chapterThreeFive]).shortest_chapter = none
    ∧ progressRow (calculate_statistics {} fsEmpty [chapterThreeFive]) 0 =
        { timestamp := 0
          total_chapters := 0
          total_words := (calculate_statistics {} fsEmpty [chapterThreeFive]).total_words
          pages := 0
          avg_chapter_length := 0
          comments := (calculate_statistics {} fsEmpty [chapterThreeFive]).total_comments
          todos := (calculate_statistics {} fsEmpty [chapterThreeFive]).total_todos } :=
  ⟨(C10_no_full_chapters_defaults {} fsEmpty [chapterThreeFive] 0 gfc_fragment_only).1,
   (C10_no_full_chapters_defaults {} fsEmpty [chapterThreeFive] 0 gfc_fragment_only).2.2.1,
   (C10_no_full_chapters_defaults {} fsEmpty [chapterThreeFive] 0 gfc_fragment_only).2.2.2.2.2⟩

lemma getLast?_isSome_of_ne_nil {α : Type} : ∀ (l : List α), l ≠ [] → ∃ w, l.getLast? = some w
  | [a], _ => ⟨a, rfl⟩
  | a :: b :: t, _ => by
    obtain ⟨w, hw⟩ := getLast?_isSome_of_ne_nil (b :: t) (by simp)
    exact ⟨w, by rwa [List.getLast?_cons_cons]⟩

/-- C2: against an existing readable ledger (the `Total Words` column present
and at least one row, as every ledger this program writes has), the run
rewrites the file as the old rows in order followed by the new row exactly
when the new `Total Words` differs from the last recorded one; when they are
equal the file is untouched; and immediately rerunning with unchanged
`Total Words` on the just-written ledger is a no-op, so two runs in a row
add exactly one row. -/
theorem C2_ledger_append_iff (t : CsvTable) (row row2 : ProgressRow)
    (hcol : t.hasTotalWordsCol = true) (hrows : t.rows ≠ [])
    (hsame : row2.total_words = row.total_words) :
    (update_progress_csv (some (.ok t)) row = .wrote (t.rows ++ [row]) ↔
      lastTotalWords t ≠ some row.total_words)
    ∧ (update_progress_csv (some (.ok t)) row = .skippedUnchanged ↔
      lastTotalWords t = some row.total_words)
    ∧ update_progress_csv (some (.ok ⟨true, t.rows ++ [row]⟩)) row2 = .skippedUnchanged := by
  obtain ⟨w, hw⟩ := getLast?_isSome_of_ne_nil (t.rows.map (fun r => r.total_words))
    (by simpa using hrows)
  have hlast : lastTotalWords t = some w := by
    rw [lastTotalWords, if_pos (by simpa using hcol)]
    exact hw
  have hlast2 : lastTotalWords ⟨true, t.rows ++ [row]⟩ = some row.total_words := by
    rw [lastTotalWords, if_pos (by simp)]
    simp only [List.map_append, List.map_cons, List.map_nil]
    exact List.getLast?_concat _
  refine ⟨?_, ?_, ?_⟩
  · rw [update_progress_csv, hlast]
    by_cases hwr : w = row.total_words
    · subst hwr
      simp
    · simp [hwr]
  · rw [update_progress_csv, hlast]
    by_cases hwr : w = row.total_words
    · subst hwr
      simp
    · simp [hwr]
  · rw [update_progress_csv, hlast2]
    simp [hsame]

/-- A concrete ledger row with 100 total words. -/
def ledgerRowA : ProgressRow :=
  { timestamp := 0, total_chapters := 1, total_words := 100, pages := 1,
    avg_chapter_length := 100, comments := 0, todos := 0 }

/-- A concrete ledger row with 150 total words. -/
def ledgerRowB : ProgressRow :=
  { timestamp := 1, total_chapters := 2, total_words := 150, pages := 1,
    avg_chapter_length := 75, comments := 1, todos := 2 }

/-- Witness for C2: appending a row with changed `Total Words` to a one-row
ledger writes both rows in order; rerunning with the same `Total Words` on
the result changes nothing. -/
theorem C2_witness :
    update_progress_csv (some (.ok ⟨true, [ledgerRowA]⟩)) ledgerRowB =
      .wrote [ledgerRowA, ledgerRowB]
    ∧ update_progress_csv (some (.ok ⟨true, [ledgerRowA, ledgerRowB]⟩)) ledgerRowB =
      .skippedUnchanged := by
  have h := C2_ledger_append_iff ⟨true, [ledgerRowA]⟩ ledgerRowB ledgerRowB rfl
    (by simp) rfl
  refine ⟨?_, ?_⟩
  · have h1 := h.1.mpr (by decide)
    simpa using h1
  · have h2 := h.2.2
    simpa using h2

/-- C1 (code bug): with an existing ledger whose last `Total Words` cannot be
read (here: the column exists but there are no data rows), the bare `except:`
branch prints its warning and then calls `save()` with no arguments although
`save` requires two, so Python raises `TypeError` and nothing is appended;
and when `pd.read_csv` itself fails on a malformed file, the exception is
raised outside the `try` and propagates, again failing the run instead of
appending. -/
theorem C1_ledger_failure_crashes :
    update_progress_csv (some (.ok ⟨true, []⟩)) ledgerRowB =
      .raised true "TypeError: save() missing 2 required positional arguments"
    ∧ update_progress_csv (some (.error "pandas read error")) ledgerRowB =
      .raised false "pandas read error" :=
  ⟨rfl, rfl⟩

end BookBuilder
